import Mathlib

/-!
Shallow embedding of `src/models.py` of the SMS-system repository: an
in-memory record store for students, courses, enrollments and grades,
with cascading deletes, upsert semantics for grades, identifier
allocation from per-kind counters, text search and GPA computation.

Modelling conventions:
* A Python `dict` keyed by `int` is modelled as an insertion-ordered
  association list `List (Nat × α)`; `d[k] = v` replaces in place when
  the key is present and appends otherwise, `del d[k]` removes the
  entry with that key, `d.get(k)` is a first-match lookup.
* Python floats are modelled as exact rationals `ℚ`; `round(x, 2)` is
  modelled as round-half-to-even of `100 * x` divided by `100`, which
  is Python's rounding rule on exact values.
* `datetime.now().isoformat()` timestamps are modelled by an abstract
  clock value `now : Nat` passed to each operation.
* The global `data_store` singleton is modelled by threading a
  `DataStore` value through every operation.
-/

namespace SMS

/-- First-match lookup, modelling Python `d.get(k)` on an association list. -/
def dictGet {α : Type} (t : List (Nat × α)) (k : Nat) : Option α :=
  (t.find? (fun p => p.1 == k)).map Prod.snd

/-- Membership test on keys, modelling Python `k in d`. -/
def dictHasKey {α : Type} (t : List (Nat × α)) (k : Nat) : Bool :=
  t.any (fun p => p.1 == k)

/-- Assignment `d[k] = v`: replace the value in place when the key is
present (keeping dict order), append a fresh entry otherwise. -/
def dictInsert {α : Type} (t : List (Nat × α)) (k : Nat) (v : α) : List (Nat × α) :=
  if dictHasKey t k then t.map (fun p => if p.1 == k then (k, v) else p)
  else t ++ [(k, v)]

/-- Deletion `del d[k]`. -/
def dictDelete {α : Type} (t : List (Nat × α)) (k : Nat) : List (Nat × α) :=
  t.filter (fun p => p.1 != k)

/-- Student record: the fields built by `Student.create` in src/models.py. -/
structure StudentRec where
  id : Nat
  name : String
  email : String
  phone : String
  address : String
  created_at : Nat
  updated_at : Nat
  deriving DecidableEq

/-- Course record: the fields built by `Course.create` in src/models.py. -/
structure CourseRec where
  id : Nat
  code : String
  name : String
  description : String
  credits : Int
  created_at : Nat
  updated_at : Nat
  deriving DecidableEq

/-- Enrollment record: the fields built by `Enrollment.create`. -/
structure EnrollmentRec where
  id : Nat
  student_id : Nat
  course_id : Nat
  enrolled_at : Nat
  deriving DecidableEq

/-- Grade record: the fields built by `Grade.create`. -/
structure GradeRec where
  id : Nat
  student_id : Nat
  course_id : Nat
  letter_grade : String
  points : ℚ
  created_at : Nat
  updated_at : Nat
  deriving DecidableEq

/-- The in-memory data store (`DataStore.__init__`): four keyed tables
and four auto-incrementing id counters. -/
structure DataStore where
  students : List (Nat × StudentRec)
  courses : List (Nat × CourseRec)
  enrollments : List (Nat × EnrollmentRec)
  grades : List (Nat × GradeRec)
  next_student_id : Nat
  next_course_id : Nat
  next_enrollment_id : Nat
  next_grade_id : Nat
  deriving DecidableEq

/-- A fresh store: empty tables, every counter at 1. -/
def DataStore.empty : DataStore :=
  ⟨[], [], [], [], 1, 1, 1, 1⟩

namespace Student

/-- `Student.create`: allocate the next student id, build the record,
insert it, return it. -/
def create (name email phone address : String) (now : Nat) (s : DataStore) :
    StudentRec × DataStore :=
  let student_id := s.next_student_id
  let st : StudentRec := ⟨student_id, name, email, phone, address, now, now⟩
  (st, { s with students := dictInsert s.students student_id st,
                next_student_id := student_id + 1 })

/-- `Student.get`. -/
def get (student_id : Nat) (s : DataStore) : Option StudentRec :=
  dictGet s.students student_id

/-- `Student.get_all`. -/
def get_all (s : DataStore) : List StudentRec :=
  s.students.map Prod.snd

/-- `Student.update`: in-place field replacement plus `updated_at` refresh;
`none` when the id is unknown. -/
def update (student_id : Nat) (name email phone address : String) (now : Nat)
    (s : DataStore) : Option StudentRec × DataStore :=
  match dictGet s.students student_id with
  | none => (none, s)
  | some st =>
    let st' := { st with name := name, email := email, phone := phone,
                         address := address, updated_at := now }
    (some st', { s with students := dictInsert s.students student_id st' })

end Student

namespace Course

/-- `Course.create`. -/
def create (code name description : String) (credits : Int) (now : Nat)
    (s : DataStore) : CourseRec × DataStore :=
  let course_id := s.next_course_id
  let c : CourseRec := ⟨course_id, code, name, description, credits, now, now⟩
  (c, { s with courses := dictInsert s.courses course_id c,
               next_course_id := course_id + 1 })

/-- `Course.get`. -/
def get (course_id : Nat) (s : DataStore) : Option CourseRec :=
  dictGet s.courses course_id

/-- `Course.get_all`. -/
def get_all (s : DataStore) : List CourseRec :=
  s.courses.map Prod.snd

/-- `Course.update`. -/
def update (course_id : Nat) (code name description : String) (credits : Int)
    (now : Nat) (s : DataStore) : Option CourseRec × DataStore :=
  match dictGet s.courses course_id with
  | none => (none, s)
  | some c =>
    let c' := { c with code := code, name := name, description := description,
                       credits := credits, updated_at := now }
    (some c', { s with courses := dictInsert s.courses course_id c' })

end Course

namespace Enrollment

/-- `Enrollment.create`: scan existing enrollments; when a
(student_id, course_id) match exists return it unchanged, otherwise
allocate the next enrollment id and insert a fresh record. -/
def create (student_id course_id : Nat) (now : Nat) (s : DataStore) :
    EnrollmentRec × DataStore :=
  match (s.enrollments.map Prod.snd).find?
      (fun e => e.student_id == student_id && e.course_id == course_id) with
  | some e => (e, s)
  | none =>
    let enrollment_id := s.next_enrollment_id
    let e : EnrollmentRec := ⟨enrollment_id, student_id, course_id, now⟩
    (e, { s with enrollments := dictInsert s.enrollments enrollment_id e,
                 next_enrollment_id := enrollment_id + 1 })

/-- `Enrollment.get`. -/
def get (enrollment_id : Nat) (s : DataStore) : Option EnrollmentRec :=
  dictGet s.enrollments enrollment_id

/-- `Enrollment.get_all`. -/
def get_all (s : DataStore) : List EnrollmentRec :=
  s.enrollments.map Prod.snd

/-- `Enrollment.get_by_student`. -/
def get_by_student (student_id : Nat) (s : DataStore) : List EnrollmentRec :=
  (s.enrollments.map Prod.snd).filter (fun e => e.student_id == student_id)

/-- `Enrollment.get_by_course`. -/
def get_by_course (course_id : Nat) (s : DataStore) : List EnrollmentRec :=
  (s.enrollments.map Prod.snd).filter (fun e => e.course_id == course_id)

/-- `Enrollment.delete_by_student`: collect the ids of matching
enrollments, then delete them one by one. -/
def delete_by_student (student_id : Nat) (s : DataStore) : DataStore :=
  let to_delete :=
    (s.enrollments.filter (fun p => p.2.student_id == student_id)).map Prod.fst
  { s with enrollments := to_delete.foldl dictDelete s.enrollments }

/-- `Enrollment.delete_by_course`. -/
def delete_by_course (course_id : Nat) (s : DataStore) : DataStore :=
  let to_delete :=
    (s.enrollments.filter (fun p => p.2.course_id == course_id)).map Prod.fst
  { s with enrollments := to_delete.foldl dictDelete s.enrollments }

end Enrollment

namespace Grade

/-- `Grade.GRADE_POINTS`: the fixed 13-entry letter-grade table, in the
source's order. -/
def GRADE_POINTS : List (String × ℚ) :=
  [("A+", 4), ("A", 4), ("A-", 37/10),
   ("B+", 33/10), ("B", 3), ("B-", 27/10),
   ("C+", 23/10), ("C", 2), ("C-", 17/10),
   ("D+", 13/10), ("D", 1), ("D-", 7/10),
   ("F", 0)]

/-- `Grade.letter_to_points`: `GRADE_POINTS.get(letter_grade, 0.0)`. -/
def letter_to_points (letter_grade : String) : ℚ :=
  ((GRADE_POINTS.find? (fun p => p.1 == letter_grade)).map Prod.snd).getD 0

/-- The Python expression `points or Grade.letter_to_points(letter_grade)`:
`None` and the float `0.0` are falsy, so the table value is used not only
when no override is supplied but also when the supplied override is 0.0. -/
def pointsOrDefault (points : Option ℚ) (letter_grade : String) : ℚ :=
  match points with
  | none => letter_to_points letter_grade
  | some p => if p = 0 then letter_to_points letter_grade else p

/-- `Grade.create`: scan existing grades; on a (student_id, course_id)
match overwrite letter_grade/points/updated_at on the existing record
in place, otherwise allocate the next grade id and insert. -/
def create (student_id course_id : Nat) (letter_grade : String)
    (points : Option ℚ) (now : Nat) (s : DataStore) : GradeRec × DataStore :=
  match s.grades.find?
      (fun p => p.2.student_id == student_id && p.2.course_id == course_id) with
  | some (grade_id, g) =>
    let g' := { g with letter_grade := letter_grade,
                       points := pointsOrDefault points letter_grade,
                       updated_at := now }
    (g', { s with grades := dictInsert s.grades grade_id g' })
  | none =>
    let grade_id := s.next_grade_id
    let g : GradeRec := ⟨grade_id, student_id, course_id, letter_grade,
                         pointsOrDefault points letter_grade, now, now⟩
    (g, { s with grades := dictInsert s.grades grade_id g,
                 next_grade_id := grade_id + 1 })

/-- `Grade.get`. -/
def get (grade_id : Nat) (s : DataStore) : Option GradeRec :=
  dictGet s.grades grade_id

/-- `Grade.get_all`. -/
def get_all (s : DataStore) : List GradeRec :=
  s.grades.map Prod.snd

/-- `Grade.get_by_student`. -/
def get_by_student (student_id : Nat) (s : DataStore) : List GradeRec :=
  (s.grades.map Prod.snd).filter (fun g => g.student_id == student_id)

/-- `Grade.get_by_course`. -/
def get_by_course (course_id : Nat) (s : DataStore) : List GradeRec :=
  (s.grades.map Prod.snd).filter (fun g => g.course_id == course_id)

/-- `Grade.get_by_student_course`: first match on the pair. -/
def get_by_student_course (student_id course_id : Nat) (s : DataStore) :
    Option GradeRec :=
  (s.grades.map Prod.snd).find?
    (fun g => g.student_id == student_id && g.course_id == course_id)

/-- `Grade.delete`. -/
def delete (grade_id : Nat) (s : DataStore) : Bool × DataStore :=
  if dictHasKey s.grades grade_id then
    (true, { s with grades := dictDelete s.grades grade_id })
  else (false, s)

/-- `Grade.delete_by_student`. -/
def delete_by_student (student_id : Nat) (s : DataStore) : DataStore :=
  let to_delete :=
    (s.grades.filter (fun p => p.2.student_id == student_id)).map Prod.fst
  { s with grades := to_delete.foldl dictDelete s.grades }

/-- `Grade.delete_by_course`. -/
def delete_by_course (course_id : Nat) (s : DataStore) : DataStore :=
  let to_delete :=
    (s.grades.filter (fun p => p.2.course_id == course_id)).map Prod.fst
  { s with grades := to_delete.foldl dictDelete s.grades }

/-- `Grade.delete_by_student_course`. -/
def delete_by_student_course (student_id course_id : Nat) (s : DataStore) :
    DataStore :=
  let to_delete :=
    (s.grades.filter
      (fun p => p.2.student_id == student_id && p.2.course_id == course_id)).map
      Prod.fst
  { s with grades := to_delete.foldl dictDelete s.grades }

end Grade

/-- Python `str.lower()`, modelled as per-character lowering of the
string's characters. -/
def pyLower (s : String) : String :=
  ⟨s.data.map Char.toLower⟩

/-- Python `sub in s` on strings: `sub` is a contiguous substring of `s`.
True when `sub` is a prefix of some suffix of `s`. -/
def containsSub (needle : List Char) : List Char → Bool
  | [] => needle.isEmpty
  | b :: bs => needle.isPrefixOf (b :: bs) || containsSub needle bs

namespace Student

/-- `Student.delete`: cascade to the student's enrollments and grades,
then remove the student. -/
def delete (student_id : Nat) (s : DataStore) : Bool × DataStore :=
  if dictHasKey s.students student_id then
    let s1 := Enrollment.delete_by_student student_id s
    let s2 := Grade.delete_by_student student_id s1
    (true, { s2 with students := dictDelete s2.students student_id })
  else (false, s)

/-- `Student.search`: empty query returns all students; otherwise a
case-insensitive substring match against name or email. -/
def search (query : String) (s : DataStore) : List StudentRec :=
  if query = "" then get_all s
  else
    let q := pyLower query
    (s.students.map Prod.snd).filter
      (fun st => containsSub q.data (pyLower st.name).data ||
                 containsSub q.data (pyLower st.email).data)

/-- Python `round(x, 2)` on an exact value: round half to even. -/
def pyRound2 (x : ℚ) : ℚ :=
  let y := x * 100
  let f : Int := ⌊y⌋
  let r : Int :=
    if y - (f : ℚ) < 1/2 then f
    else if (1/2 : ℚ) < y - (f : ℚ) then f + 1
    else if f % 2 = 0 then f else f + 1
  (r : ℚ) / 100

/-- `Student.calculate_gpa`: gather the student's grades; skip grades
whose course no longer exists; accumulate points×credits and credits;
0.0 when there are no grades or no credits, else the rounded quotient. -/
def calculate_gpa (student_id : Nat) (s : DataStore) : ℚ :=
  let student_grades := Grade.get_by_student student_id s
  if student_grades.isEmpty then 0
  else
    let acc := student_grades.foldl
      (fun (a : ℚ × Int) g =>
        match Course.get g.course_id s with
        | some course =>
          (a.1 + Grade.letter_to_points g.letter_grade * (course.credits : ℚ),
           a.2 + course.credits)
        | none => a)
      (0, 0)
    if acc.2 = 0 then 0 else pyRound2 (acc.1 / (acc.2 : ℚ))

end Student

namespace Course

/-- `Course.delete`: cascade to the course's enrollments and grades,
then remove the course. -/
def delete (course_id : Nat) (s : DataStore) : Bool × DataStore :=
  if dictHasKey s.courses course_id then
    let s1 := Enrollment.delete_by_course course_id s
    let s2 := Grade.delete_by_course course_id s1
    (true, { s2 with courses := dictDelete s2.courses course_id })
  else (false, s)

end Course

namespace Enrollment

/-- `Enrollment.delete`: cascade to the grade of the same
(student_id, course_id) pair, then remove the enrollment. -/
def delete (enrollment_id : Nat) (s : DataStore) : Bool × DataStore :=
  match dictGet s.enrollments enrollment_id with
  | none => (false, s)
  | some e =>
    let s1 := Grade.delete_by_student_course e.student_id e.course_id s
    (true, { s1 with enrollments := dictDelete s1.enrollments enrollment_id })

end Enrollment

/-- One public mutating operation of the store, with arbitrary arguments. -/
inductive Step : DataStore → DataStore → Prop where
  | student_create (n e ph ad : String) (now : Nat) (s : DataStore) :
      Step s (Student.create n e ph ad now s).2
  | student_update (sid : Nat) (n e ph ad : String) (now : Nat) (s : DataStore) :
      Step s (Student.update sid n e ph ad now s).2
  | student_delete (sid : Nat) (s : DataStore) :
      Step s (Student.delete sid s).2
  | course_create (code n d : String) (cr : Int) (now : Nat) (s : DataStore) :
      Step s (Course.create code n d cr now s).2
  | course_update (cid : Nat) (code n d : String) (cr : Int) (now : Nat)
      (s : DataStore) :
      Step s (Course.update cid code n d cr now s).2
  | course_delete (cid : Nat) (s : DataStore) :
      Step s (Course.delete cid s).2
  | enrollment_create (sid cid now : Nat) (s : DataStore) :
      Step s (Enrollment.create sid cid now s).2
  | enrollment_delete (eid : Nat) (s : DataStore) :
      Step s (Enrollment.delete eid s).2
  | grade_create (sid cid : Nat) (lg : String) (pts : Option ℚ) (now : Nat)
      (s : DataStore) :
      Step s (Grade.create sid cid lg pts now s).2
  | grade_delete (gid : Nat) (s : DataStore) :
      Step s (Grade.delete gid s).2

/-- A store state reachable from the fresh store by public operations. -/
inductive Reachable : DataStore → Prop where
  | empty : Reachable DataStore.empty
  | step {s t : DataStore} : Reachable s → Step s t → Reachable t

/-- Well-formedness of one table: keys are distinct, below the id
counter, and each record's `id` field equals its key. -/
abbrev tableWF {α : Type} (idOf : α → Nat) (next : Nat) (t : List (Nat × α)) : Prop :=
  (t.map Prod.fst).Nodup ∧ ∀ p ∈ t, p.1 < next ∧ idOf p.2 = p.1

/-- The (student_id, course_id) pair of a stored grade entry. -/
def pairOf (p : Nat × GradeRec) : Nat × Nat :=
  (p.2.student_id, p.2.course_id)

/-- At most one grade per (student_id, course_id) pair. -/
abbrev GradePairsNodup (t : List (Nat × GradeRec)) : Prop :=
  (t.map pairOf).Nodup

/-- Well-formedness of the whole store. -/
abbrev StoreWF (s : DataStore) : Prop :=
  tableWF StudentRec.id s.next_student_id s.students ∧
  tableWF CourseRec.id s.next_course_id s.courses ∧
  tableWF EnrollmentRec.id s.next_enrollment_id s.enrollments ∧
  tableWF GradeRec.id s.next_grade_id s.grades ∧
  GradePairsNodup s.grades

/-- GPA numerator as the spec states it: over the student's grades whose
course still exists, sum points-per-letter times credits. -/
def gpaNumerator (sid : Nat) (s : DataStore) : ℚ :=
  ((Grade.get_by_student sid s).filterMap (fun g =>
    (Course.get g.course_id s).map
      (fun c => Grade.letter_to_points g.letter_grade * (c.credits : ℚ)))).sum

/-- GPA denominator as the spec states it: over the student's grades
whose course still exists, sum the course credits. -/
def gpaDenominator (sid : Nat) (s : DataStore) : Int :=
  ((Grade.get_by_student sid s).filterMap (fun g =>
    (Course.get g.course_id s).map (fun c => c.credits))).sum

/-- The part of a stored grade that `calculate_gpa` can observe. -/
def gradeView (g : GradeRec) : Nat × Nat × String :=
  (g.student_id, g.course_id, g.letter_grade)

/-- GPA computed from courses and grade views only. -/
def gpaOfViews (courses : List (Nat × CourseRec)) (vs : List (Nat × Nat × String))
    (sid : Nat) : ℚ :=
  let mine := vs.filter (fun v => v.1 == sid)
  if mine.isEmpty then 0
  else
    let acc := mine.foldl
      (fun (a : ℚ × Int) v =>
        match dictGet courses v.2.1 with
        | some course =>
          (a.1 + Grade.letter_to_points v.2.2 * (course.credits : ℚ),
           a.2 + course.credits)
        | none => a)
      (0, 0)
    if acc.2 = 0 then 0 else Student.pyRound2 (acc.1 / (acc.2 : ℚ))

/-- Entry-wise equality of grade tables everywhere except `points`. -/
def EqExceptPoints (p q : Nat × GradeRec) : Prop :=
  p.1 = q.1 ∧ p.2.id = q.2.id ∧ p.2.student_id = q.2.student_id ∧
  p.2.course_id = q.2.course_id ∧ p.2.letter_grade = q.2.letter_grade ∧
  p.2.created_at = q.2.created_at ∧ p.2.updated_at = q.2.updated_at

/-- Example store: one student with grade A in a 3-credit course and
grade B in a 4-credit course. -/
def gpaExampleStore : DataStore :=
  { students := [(1, ⟨1, "John Smith", "john@example.com", "1", "a1", 0, 0⟩)],
    courses := [(1, ⟨1, "CS101", "Intro", "d", 3, 0, 0⟩), (2, ⟨2, "MA101", "Calc", "d", 4, 0, 0⟩)],
    enrollments := [(1, ⟨1, 1, 1, 0⟩), (2, ⟨2, 1, 2, 0⟩)],
    grades := [(1, ⟨1, 1, 1, "A", 4, 0, 0⟩), (2, ⟨2, 1, 2, "B", 3, 0, 0⟩)],
    next_student_id := 2, next_course_id := 3, next_enrollment_id := 3, next_grade_id := 3 }

/-- Example store: a student named "John Smith" and a student with
email "josephine@example.com". -/
def searchExampleStore : DataStore :=
  { students := [(1, ⟨1, "John Smith", "john@example.com", "1", "a1", 0, 0⟩), (2, ⟨2, "Mary Jones", "josephine@example.com", "2", "a2", 0, 0⟩)],
    courses := [], enrollments := [], grades := [],
    next_student_id := 3, next_course_id := 1, next_enrollment_id := 1, next_grade_id := 1 }

/-- Example store with one enrollment for the pair (5, 7). -/
def enrollExampleStore : DataStore :=
  { students := [], courses := [], enrollments := [(1, ⟨1, 5, 7, 0⟩)], grades := [],
    next_student_id := 1, next_course_id := 1, next_enrollment_id := 2, next_grade_id := 1 }

/-- Example store with one grade for the pair (1, 1). -/
def gradeExampleStore : DataStore :=
  { students := [], courses := [], enrollments := [], grades := [(1, ⟨1, 1, 1, "A", 4, 0, 0⟩)],
    next_student_id := 1, next_course_id := 1, next_enrollment_id := 1, next_grade_id := 2 }

/-- Example store with two students enrolled and graded in one course. -/
def cascadeExampleStore : DataStore :=
  { students := [(1, ⟨1, "A", "a@x", "1", "p", 0, 0⟩), (2, ⟨2, "B", "b@x", "2", "q", 0, 0⟩)],
    courses := [(1, ⟨1, "C1", "N", "d", 3, 0, 0⟩)],
    enrollments := [(1, ⟨1, 1, 1, 0⟩), (2, ⟨2, 2, 1, 0⟩)],
    grades := [(1, ⟨1, 1, 1, "A", 4, 0, 0⟩), (2, ⟨2, 2, 1, "B", 3, 0, 0⟩)],
    next_student_id := 3, next_course_id := 2, next_enrollment_id := 3, next_grade_id := 3 }

/-- Two stores that differ only in a grade's stored `points` (4 vs 7). -/
def pointsStoreA : DataStore :=
  { students := [], courses := [(1, ⟨1, "C", "N", "d", 3, 0, 0⟩)], enrollments := [], grades := [(1, ⟨1, 1, 1, "A", 4, 0, 0⟩)],
    next_student_id := 1, next_course_id := 2, next_enrollment_id := 1, next_grade_id := 2 }

/-- Companion of `pointsStoreA` with the grade's `points` set to 7. -/
def pointsStoreB : DataStore :=
  { students := [], courses := [(1, ⟨1, "C", "N", "d", 3, 0, 0⟩)], enrollments := [], grades := [(1, ⟨1, 1, 1, "A", 7, 0, 0⟩)],
    next_student_id := 1, next_course_id := 2, next_enrollment_id := 1, next_grade_id := 2 }

theorem dictHasKey_iff {α : Type} {t : List (Nat × α)} {k : Nat} :
    dictHasKey t k = true ↔ ∃ p ∈ t, p.1 = k := by
  simp [dictHasKey, List.any_eq_true]

theorem find?_map_replace {α : Type} {t : List (Nat × α)} {k : Nat} (v : α)
    (h : dictHasKey t k = true) :
    (t.map (fun p => if p.1 == k then (k, v) else p)).find?
      (fun p => p.1 == k) = some (k, v) := by
  induction t with
  | nil => simp [dictHasKey] at h
  | cons p t ih =>
    by_cases hp : (p.1 == k) = true
    · rw [List.map_cons, if_pos hp]
      exact List.find?_cons_of_pos _ (by simp)
    · have hb : (p.1 == k) = false := Bool.eq_false_iff.2 hp
      have h' : dictHasKey t k = true := by
        simp only [dictHasKey, List.any_cons, hb, Bool.false_or] at h
        simpa [dictHasKey] using h
      rw [List.map_cons, if_neg hp,
        List.find?_cons_of_neg (p := fun q : Nat × α => q.1 == k) _ hp]
      exact ih h'

theorem dictGet_insert_self {α : Type} (t : List (Nat × α)) (k : Nat) (v : α) :
    dictGet (dictInsert t k v) k = some v := by
  unfold dictInsert
  by_cases h : dictHasKey t k = true
  · rw [if_pos h, dictGet, find?_map_replace v h]
    rfl
  · rw [if_neg h]
    have hnone : t.find? (fun p => p.1 == k) = none := by
      rw [List.find?_eq_none]
      intro p hp hpk
      exact h (dictHasKey_iff.2 ⟨p, hp, by simpa using hpk⟩)
    rw [dictGet, List.find?_append, hnone, Option.none_or,
      List.find?_cons_of_pos _ (by simp)]
    rfl

theorem dictGet_of_mem_nodup {α : Type} {t : List (Nat × α)} {k : Nat} {v : α}
    (hnd : (t.map Prod.fst).Nodup) (hmem : (k, v) ∈ t) :
    dictGet t k = some v := by
  induction t with
  | nil => cases hmem
  | cons p t ih =>
    rw [List.map_cons, List.nodup_cons] at hnd
    rcases List.mem_cons.1 hmem with h | h
    · subst h
      rw [dictGet, List.find?_cons_of_pos _ (by simp)]
      rfl
    · have hk : k ∈ t.map Prod.fst := List.mem_map.2 ⟨(k, v), h, rfl⟩
      have hp : ¬((p.1 == k) = true) := by
        intro hc
        exact hnd.1 (by rw [show p.1 = k from by simpa using hc]; exact hk)
      rw [dictGet, List.find?_cons_of_neg (p := fun q : Nat × α => q.1 == k) _ hp]
      exact ih hnd.2 h

theorem foldl_dictDelete_eq_filter {α : Type} (ks : List Nat)
    (t : List (Nat × α)) :
    ks.foldl dictDelete t = t.filter (fun p => decide (p.1 ∉ ks)) := by
  induction ks generalizing t with
  | nil => simp
  | cons k ks ih =>
    rw [List.foldl_cons, ih, dictDelete, List.filter_filter]
    apply List.filter_congr
    intro p _
    by_cases h1 : p.1 = k <;> by_cases h2 : p.1 ∈ ks <;> simp [h1, h2]

theorem foldl_delete_matching {α : Type} (t : List (Nat × α))
    (f : Nat × α → Bool) (hnd : (t.map Prod.fst).Nodup) :
    ((t.filter f).map Prod.fst).foldl dictDelete t
      = t.filter (fun p => !f p) := by
  rw [foldl_dictDelete_eq_filter]
  apply List.filter_congr
  intro p hp
  by_cases hf : f p = true
  · have hmem : p.1 ∈ (t.filter f).map Prod.fst :=
      List.mem_map.2 ⟨p, List.mem_filter.2 ⟨hp, hf⟩, rfl⟩
    simp [hmem, hf]
  · have hmem : p.1 ∉ (t.filter f).map Prod.fst := by
      intro hc
      rcases List.mem_map.1 hc with ⟨q, hq, hq1⟩
      have hqt : q ∈ t := (List.mem_filter.1 hq).1
      have : q = p := List.inj_on_of_nodup_map hnd hqt hp hq1
      exact hf (this ▸ (List.mem_filter.1 hq).2)
    simp [hmem, hf]

theorem tableWF_filter {α : Type} {idOf : α → Nat} {next : Nat}
    {t : List (Nat × α)} (h : tableWF idOf next t) (f : Nat × α → Bool) :
    tableWF idOf next (t.filter f) :=
  ⟨((List.filter_sublist t).map Prod.fst).nodup h.1,
   fun p hp => h.2 p (List.mem_filter.1 hp).1⟩

theorem tableWF_mono {α : Type} {idOf : α → Nat} {next next' : Nat}
    {t : List (Nat × α)} (hle : next ≤ next') (h : tableWF idOf next t) :
    tableWF idOf next' t :=
  ⟨h.1, fun p hp => ⟨lt_of_lt_of_le (h.2 p hp).1 hle, (h.2 p hp).2⟩⟩

theorem dictHasKey_false_of_bounded {α : Type} {idOf : α → Nat} {next : Nat}
    {t : List (Nat × α)} (h : tableWF idOf next t) :
    dictHasKey t next = false := by
  rw [Bool.eq_false_iff]
  intro hc
  rcases dictHasKey_iff.1 hc with ⟨p, hp, hk⟩
  exact absurd ((h.2 p hp).1) (by omega)

theorem tableWF_insert_fresh {α : Type} {idOf : α → Nat} {next : Nat}
    {t : List (Nat × α)} (h : tableWF idOf next t) {v : α}
    (hv : idOf v = next) :
    tableWF idOf (next + 1) (dictInsert t next v) := by
  rw [dictInsert, if_neg (by simp [dictHasKey_false_of_bounded h])]
  constructor
  · rw [List.map_append, List.nodup_append]
    refine ⟨h.1, by simp, ?_⟩
    intro a ha hb
    simp at hb
    subst hb
    rcases List.mem_map.1 ha with ⟨p, hp, hk⟩
    exact absurd ((h.2 p hp).1) (by omega)
  · intro p hp
    rcases List.mem_append.1 hp with hp | hp
    · exact ⟨Nat.lt_succ_of_lt (h.2 p hp).1, (h.2 p hp).2⟩
    · simp at hp
      subst hp
      exact ⟨Nat.lt_succ_self _, hv⟩

theorem tableWF_insert_existing {α : Type} {idOf : α → Nat} {next k : Nat}
    {t : List (Nat × α)} (h : tableWF idOf next t) {v : α}
    (hk : k < next) (hv : idOf v = k) :
    tableWF idOf next (dictInsert t k v) := by
  unfold dictInsert
  by_cases hhas : dictHasKey t k = true
  · rw [if_pos hhas]
    constructor
    · have : (t.map (fun p => if p.1 == k then (k, v) else p)).map Prod.fst
          = t.map Prod.fst := by
        rw [List.map_map]
        apply List.map_congr_left
        intro p _
        by_cases hp : p.1 = k <;> simp [hp]
      rw [this]
      exact h.1
    · intro q hq
      rcases List.mem_map.1 hq with ⟨p, hp, hq'⟩
      by_cases hpk : p.1 = k
      · rw [← hq']
        simp [hpk]
        exact ⟨hk, hv⟩
      · rw [← hq']
        simp [hpk]
        exact h.2 p hp
  · rw [if_neg hhas]
    constructor
    · rw [List.map_append, List.nodup_append]
      refine ⟨h.1, by simp, ?_⟩
      intro a ha hb
      simp at hb
      subst hb
      rcases List.mem_map.1 ha with ⟨p, hp, hk'⟩
      exact hhas (dictHasKey_iff.2 ⟨p, hp, hk'⟩)
    · intro p hp
      rcases List.mem_append.1 hp with hp | hp
      · exact h.2 p hp
      · simp at hp
        subst hp
        exact ⟨hk, hv⟩

theorem mem_of_dictGet {α : Type} {t : List (Nat × α)} {k : Nat} {v : α}
    (h : dictGet t k = some v) : (k, v) ∈ t := by
  unfold dictGet at h
  cases hf : t.find? (fun p => p.1 == k) with
  | none => rw [hf] at h; cases h
  | some p =>
    rw [hf] at h
    have hp : (p.1 == k) = true :=
      List.find?_some (p := fun q : Nat × α => q.1 == k) hf
    have hm : p ∈ t := List.mem_of_find?_eq_some hf
    have hv2 : p.2 = v := by simpa using h
    have hpk : p.1 = k := by simpa using hp
    have : p = (k, v) := by
      cases p
      simp_all
    rwa [← this]

theorem gradePairsNodup_filter {t : List (Nat × GradeRec)}
    (h : GradePairsNodup t) (f : Nat × GradeRec → Bool) :
    GradePairsNodup (t.filter f) :=
  List.Nodup.sublist ((List.filter_sublist t).map pairOf) h

/-- `Student.delete` on a present id: the student row, the student's
enrollments and the student's grades are removed; nothing else changes. -/
theorem student_delete_char (sid : Nat) {s : DataStore}
    (hE : (s.enrollments.map Prod.fst).Nodup)
    (hG : (s.grades.map Prod.fst).Nodup)
    (hk : dictHasKey s.students sid = true) :
    Student.delete sid s =
      (true,
       { s with
         students := s.students.filter (fun p => p.1 != sid),
         enrollments := s.enrollments.filter (fun p => !(p.2.student_id == sid)),
         grades := s.grades.filter (fun p => !(p.2.student_id == sid)) }) := by
  unfold Student.delete Enrollment.delete_by_student Grade.delete_by_student
  rw [if_pos hk]
  have e1 := foldl_delete_matching s.enrollments
    (fun p => p.2.student_id == sid) hE
  have e2 := foldl_delete_matching s.grades
    (fun p => p.2.student_id == sid) hG
  simp only [e1, e2]
  rfl

/-- `Course.delete` on a present id: the course row, the course's
enrollments and the course's grades are removed; nothing else changes. -/
theorem course_delete_char (cid : Nat) {s : DataStore}
    (hE : (s.enrollments.map Prod.fst).Nodup)
    (hG : (s.grades.map Prod.fst).Nodup)
    (hk : dictHasKey s.courses cid = true) :
    Course.delete cid s =
      (true,
       { s with
         courses := s.courses.filter (fun p => p.1 != cid),
         enrollments := s.enrollments.filter (fun p => !(p.2.course_id == cid)),
         grades := s.grades.filter (fun p => !(p.2.course_id == cid)) }) := by
  unfold Course.delete Enrollment.delete_by_course Grade.delete_by_course
  rw [if_pos hk]
  have e1 := foldl_delete_matching s.enrollments
    (fun p => p.2.course_id == cid) hE
  have e2 := foldl_delete_matching s.grades
    (fun p => p.2.course_id == cid) hG
  simp only [e1, e2]
  rfl

/-- `Enrollment.delete` on a present id: the enrollment row and every
grade with the same (student_id, course_id) pair are removed. -/
theorem enrollment_delete_char {eid : Nat} {e : EnrollmentRec} {s : DataStore}
    (hG : (s.grades.map Prod.fst).Nodup)
    (hget : dictGet s.enrollments eid = some e) :
    Enrollment.delete eid s =
      (true,
       { s with
         enrollments := s.enrollments.filter (fun p => p.1 != eid),
         grades := s.grades.filter (fun p =>
           !(p.2.student_id == e.student_id && p.2.course_id == e.course_id)) }) := by
  unfold Enrollment.delete Grade.delete_by_student_course
  rw [hget]
  have e1 := foldl_delete_matching s.grades
    (fun p => p.2.student_id == e.student_id && p.2.course_id == e.course_id) hG
  simp only [e1]
  rfl

theorem storeWF_student_create (n e ph ad : String) (now : Nat) {s : DataStore}
    (h : StoreWF s) : StoreWF (Student.create n e ph ad now s).2 := by
  obtain ⟨h1, h2, h3, h4, h5⟩ := h
  exact ⟨tableWF_insert_fresh h1 rfl, h2, h3, h4, h5⟩

theorem storeWF_course_create (code n d : String) (cr : Int) (now : Nat)
    {s : DataStore} (h : StoreWF s) :
    StoreWF (Course.create code n d cr now s).2 := by
  obtain ⟨h1, h2, h3, h4, h5⟩ := h
  exact ⟨h1, tableWF_insert_fresh h2 rfl, h3, h4, h5⟩

theorem storeWF_student_update (sid : Nat) (n e ph ad : String) (now : Nat)
    {s : DataStore} (h : StoreWF s) :
    StoreWF (Student.update sid n e ph ad now s).2 := by
  obtain ⟨h1, h2, h3, h4, h5⟩ := h
  unfold Student.update
  cases hg : dictGet s.students sid with
  | none => exact ⟨h1, h2, h3, h4, h5⟩
  | some st =>
    have hmem := mem_of_dictGet hg
    have hb := (h1.2 _ hmem).1
    have hid : st.id = sid := (h1.2 _ hmem).2
    exact ⟨tableWF_insert_existing h1 hb (by simpa using hid), h2, h3, h4, h5⟩

theorem storeWF_course_update (cid : Nat) (code n d : String) (cr : Int)
    (now : Nat) {s : DataStore} (h : StoreWF s) :
    StoreWF (Course.update cid code n d cr now s).2 := by
  obtain ⟨h1, h2, h3, h4, h5⟩ := h
  unfold Course.update
  cases hg : dictGet s.courses cid with
  | none => exact ⟨h1, h2, h3, h4, h5⟩
  | some c =>
    have hmem := mem_of_dictGet hg
    have hb := (h2.2 _ hmem).1
    have hid : c.id = cid := (h2.2 _ hmem).2
    exact ⟨h1, tableWF_insert_existing h2 hb (by simpa using hid), h3, h4, h5⟩

theorem storeWF_student_delete (sid : Nat) {s : DataStore} (h : StoreWF s) :
    StoreWF (Student.delete sid s).2 := by
  obtain ⟨h1, h2, h3, h4, h5⟩ := h
  by_cases hk : dictHasKey s.students sid = true
  · rw [student_delete_char sid h3.1 h4.1 hk]
    exact ⟨tableWF_filter h1 _, h2, tableWF_filter h3 _, tableWF_filter h4 _,
      gradePairsNodup_filter h5 _⟩
  · unfold Student.delete
    rw [if_neg hk]
    exact ⟨h1, h2, h3, h4, h5⟩

theorem storeWF_course_delete (cid : Nat) {s : DataStore} (h : StoreWF s) :
    StoreWF (Course.delete cid s).2 := by
  obtain ⟨h1, h2, h3, h4, h5⟩ := h
  by_cases hk : dictHasKey s.courses cid = true
  · rw [course_delete_char cid h3.1 h4.1 hk]
    exact ⟨h1, tableWF_filter h2 _, tableWF_filter h3 _, tableWF_filter h4 _,
      gradePairsNodup_filter h5 _⟩
  · unfold Course.delete
    rw [if_neg hk]
    exact ⟨h1, h2, h3, h4, h5⟩

theorem storeWF_enrollment_create (sid cid now : Nat) {s : DataStore}
    (h : StoreWF s) : StoreWF (Enrollment.create sid cid now s).2 := by
  obtain ⟨h1, h2, h3, h4, h5⟩ := h
  unfold Enrollment.create
  cases hf : (s.enrollments.map Prod.snd).find?
      (fun e => e.student_id == sid && e.course_id == cid) with
  | some e => exact ⟨h1, h2, h3, h4, h5⟩
  | none => exact ⟨h1, h2, tableWF_insert_fresh h3 rfl, h4, h5⟩

theorem storeWF_enrollment_delete (eid : Nat) {s : DataStore} (h : StoreWF s) :
    StoreWF (Enrollment.delete eid s).2 := by
  obtain ⟨h1, h2, h3, h4, h5⟩ := h
  cases hg : dictGet s.enrollments eid with
  | none =>
    unfold Enrollment.delete
    rw [hg]
    exact ⟨h1, h2, h3, h4, h5⟩
  | some e =>
    rw [enrollment_delete_char h4.1 hg]
    exact ⟨h1, h2, tableWF_filter h3 _, tableWF_filter h4 _,
      gradePairsNodup_filter h5 _⟩

theorem storeWF_grade_delete (gid : Nat) {s : DataStore} (h : StoreWF s) :
    StoreWF (Grade.delete gid s).2 := by
  obtain ⟨h1, h2, h3, h4, h5⟩ := h
  unfold Grade.delete
  by_cases hk : dictHasKey s.grades gid = true
  · rw [if_pos hk]
    exact ⟨h1, h2, h3, tableWF_filter h4 _, gradePairsNodup_filter h5 _⟩
  · rw [if_neg hk]
    exact ⟨h1, h2, h3, h4, h5⟩

theorem storeWF_grade_create (sid cid : Nat) (lg : String) (pts : Option ℚ)
    (now : Nat) {s : DataStore} (h : StoreWF s) :
    StoreWF (Grade.create sid cid lg pts now s).2 := by
  obtain ⟨h1, h2, h3, h4, h5⟩ := h
  unfold Grade.create
  cases hf : s.grades.find?
      (fun p => p.2.student_id == sid && p.2.course_id == cid) with
  | none =>
    refine ⟨h1, h2, h3, tableWF_insert_fresh h4 rfl, ?_⟩
    show GradePairsNodup (dictInsert s.grades s.next_grade_id _)
    rw [dictInsert, if_neg (by simp [dictHasKey_false_of_bounded h4])]
    unfold GradePairsNodup
    rw [List.map_append, List.nodup_append]
    refine ⟨h5, by simp, ?_⟩
    intro a ha hb
    simp [pairOf] at hb
    rcases List.mem_map.1 ha with ⟨p, hp, hpa⟩
    have hnp := List.find?_eq_none.1 hf p hp
    rw [← hpa] at hb
    simp [pairOf] at hb
    exact hnp (by simp [hb.1, hb.2])
  | some pg =>
    obtain ⟨gid, g⟩ := pg
    have hmem : (gid, g) ∈ s.grades := List.mem_of_find?_eq_some hf
    have hbound := (h4.2 _ hmem).1
    have hid : g.id = gid := (h4.2 _ hmem).2
    refine ⟨h1, h2, h3, tableWF_insert_existing h4 hbound (by simpa using hid), ?_⟩
    show GradePairsNodup (dictInsert s.grades gid _)
    rw [dictInsert, if_pos (dictHasKey_iff.2 ⟨(gid, g), hmem, rfl⟩)]
    unfold GradePairsNodup
    have hmap : (s.grades.map (fun p =>
        if p.1 == gid then
          (gid, { g with letter_grade := lg,
                         points := Grade.pointsOrDefault pts lg,
                         updated_at := now })
        else p)).map pairOf = s.grades.map pairOf := by
      rw [List.map_map]
      apply List.map_congr_left
      intro p hp
      by_cases hpk : p.1 = gid
      · have hpe : p = (gid, g) :=
          List.inj_on_of_nodup_map h4.1 hp hmem (by simpa using hpk)
        subst hpe
        simp [pairOf]
      · simp [Function.comp, hpk, pairOf]
    rw [hmap]
    exact h5

theorem storeWF_step {s t : DataStore} (h : StoreWF s) (hst : Step s t) :
    StoreWF t := by
  cases hst with
  | student_create n e ph ad now s => exact storeWF_student_create n e ph ad now h
  | student_update sid n e ph ad now s =>
    exact storeWF_student_update sid n e ph ad now h
  | student_delete sid s => exact storeWF_student_delete sid h
  | course_create code n d cr now s => exact storeWF_course_create code n d cr now h
  | course_update cid code n d cr now s =>
    exact storeWF_course_update cid code n d cr now h
  | course_delete cid s => exact storeWF_course_delete cid h
  | enrollment_create sid cid now s => exact storeWF_enrollment_create sid cid now h
  | enrollment_delete eid s => exact storeWF_enrollment_delete eid h
  | grade_create sid cid lg pts now s =>
    exact storeWF_grade_create sid cid lg pts now h
  | grade_delete gid s => exact storeWF_grade_delete gid h

theorem storeWF_empty : StoreWF DataStore.empty := by
  refine ⟨⟨?_, ?_⟩, ⟨?_, ?_⟩, ⟨?_, ?_⟩, ⟨?_, ?_⟩, ?_⟩ <;>
    simp [DataStore.empty, GradePairsNodup]

/-- Every reachable store is well-formed. -/
theorem reachable_storeWF {s : DataStore} (h : Reachable s) : StoreWF s := by
  induction h with
  | empty => exact storeWF_empty
  | step _ hst ih => exact storeWF_step ih hst

theorem gpa_foldl (s : DataStore) (gs : List GradeRec) (a : ℚ) (c : Int) :
    gs.foldl
      (fun (x : ℚ × Int) g =>
        match Course.get g.course_id s with
        | some course =>
          (x.1 + Grade.letter_to_points g.letter_grade * (course.credits : ℚ),
           x.2 + course.credits)
        | none => x)
      (a, c)
    = (a + (gs.filterMap (fun g =>
          (Course.get g.course_id s).map
            (fun course =>
              Grade.letter_to_points g.letter_grade * (course.credits : ℚ)))).sum,
       c + (gs.filterMap (fun g =>
          (Course.get g.course_id s).map (fun course => course.credits))).sum) := by
  induction gs generalizing a c with
  | nil => simp
  | cons g gs ih =>
    rw [List.foldl_cons]
    cases hc : Course.get g.course_id s with
    | none =>
      simp only [hc, List.filterMap_cons, Option.map_none']
      exact ih a c
    | some course =>
      simp only [hc, List.filterMap_cons, Option.map_some']
      rw [ih]
      rw [List.sum_cons, List.sum_cons]
      refine Prod.ext ?_ ?_ <;> simp <;> ring

/-- `calculate_gpa` equals the spec formula: 0 when the denominator is
0, otherwise the rounded credit-weighted average. -/
theorem calculate_gpa_spec (sid : Nat) (s : DataStore) :
    Student.calculate_gpa sid s =
      if gpaDenominator sid s = 0 then 0
      else Student.pyRound2 (gpaNumerator sid s / (gpaDenominator sid s : ℚ)) := by
  unfold Student.calculate_gpa gpaNumerator gpaDenominator
  by_cases hemp : (Grade.get_by_student sid s).isEmpty = true
  · have : Grade.get_by_student sid s = [] := List.isEmpty_iff.1 hemp
    simp [this]
  · simp only [hemp, Bool.false_eq_true, if_false]
    rw [gpa_foldl]
    simp

theorem isEmpty_map_eq {α β : Type} (f : α → β) (l : List α) :
    (l.map f).isEmpty = l.isEmpty := by
  cases l <;> rfl

/-- `calculate_gpa` factors through the grade views: it reads a grade
only through (student_id, course_id, letter_grade), never `points`. -/
theorem calculate_gpa_eq_views (sid : Nat) (s : DataStore) :
    Student.calculate_gpa sid s
      = gpaOfViews s.courses ((s.grades.map Prod.snd).map gradeView) sid := by
  unfold Student.calculate_gpa gpaOfViews Grade.get_by_student
  simp only [List.filter_map, List.foldl_map, isEmpty_map_eq, List.map_map]
  rfl

/-- Two stores with the same courses and the same grade views compute
the same GPA for every student. -/
theorem calculate_gpa_view {s t : DataStore} (sid : Nat)
    (hc : s.courses = t.courses)
    (hg : (s.grades.map Prod.snd).map gradeView
            = (t.grades.map Prod.snd).map gradeView) :
    Student.calculate_gpa sid s = Student.calculate_gpa sid t := by
  rw [calculate_gpa_eq_views, calculate_gpa_eq_views, hc, hg]

theorem view_of_eqExceptPoints {l₁ l₂ : List (Nat × GradeRec)}
    (h : List.Forall₂ EqExceptPoints l₁ l₂) :
    (l₁.map Prod.snd).map gradeView = (l₂.map Prod.snd).map gradeView := by
  induction h with
  | nil => rfl
  | cons hpq _ ih =>
    obtain ⟨_, _, h3, h4, h5, _, _⟩ := hpq
    simp only [List.map_cons, ih, gradeView, h3, h4, h5]

theorem grade_create_points (sid cid : Nat) (lg : String) (pts : Option ℚ)
    (now : Nat) (s : DataStore) :
    (Grade.create sid cid lg pts now s).1.points = Grade.pointsOrDefault pts lg := by
  unfold Grade.create
  cases hf : s.grades.find?
      (fun p => p.2.student_id == sid && p.2.course_id == cid) with
  | none => rfl
  | some pg => obtain ⟨gid, g⟩ := pg; rfl

theorem letter_to_points_of_not_mem {lg : String}
    (h : lg ∉ Grade.GRADE_POINTS.map Prod.fst) :
    Grade.letter_to_points lg = 0 := by
  unfold Grade.letter_to_points
  have hn : Grade.GRADE_POINTS.find? (fun p => p.1 == lg) = none := by
    rw [List.find?_eq_none]
    intro p hp hc
    exact h (List.mem_map.2 ⟨p, hp, by simpa using hc⟩)
  rw [hn]
  rfl

/-- `Grade.create` on an existing (student_id, course_id) pair: the
record found by the scan is overwritten in place. -/
theorem grade_create_existing {sid cid : Nat} {lg : String} {pts : Option ℚ}
    {now : Nat} {s : DataStore} {gid : Nat} {g : GradeRec}
    (hf : s.grades.find? (fun p => p.2.student_id == sid && p.2.course_id == cid)
            = some (gid, g)) :
    Grade.create sid cid lg pts now s
      = ({ g with letter_grade := lg, points := Grade.pointsOrDefault pts lg,
                  updated_at := now },
         { s with grades := dictInsert s.grades gid ({ g with letter_grade := lg, points := Grade.pointsOrDefault pts lg, updated_at := now }) }) := by
  unfold Grade.create
  rw [hf]

theorem dictInsert_length_of_hasKey {α : Type} {t : List (Nat × α)} {k : Nat}
    (h : dictHasKey t k = true) (v : α) :
    (dictInsert t k v).length = t.length := by
  rw [dictInsert, if_pos h, List.length_map]

/-- `Enrollment.create` when the pair already has an enrollment: the
store is unchanged and the returned record is an existing one. -/
theorem enrollment_create_existing {s : DataStore} {sid cid now : Nat}
    {e : EnrollmentRec}
    (hf : (s.enrollments.map Prod.snd).find?
            (fun x => x.student_id == sid && x.course_id == cid) = some e) :
    Enrollment.create sid cid now s = (e, s) := by
  unfold Enrollment.create
  rw [hf]

/-- Calling `Enrollment.create` twice with the same pair: the second
call returns the first call's record and changes nothing. -/
theorem enrollment_create_create (sid cid now now' : Nat) {s : DataStore}
    (h : StoreWF s) :
    Enrollment.create sid cid now' (Enrollment.create sid cid now s).2
      = ((Enrollment.create sid cid now s).1,
         (Enrollment.create sid cid now s).2) := by
  obtain ⟨h1, h2, h3, h4, h5⟩ := h
  cases hf : (s.enrollments.map Prod.snd).find?
      (fun e => e.student_id == sid && e.course_id == cid) with
  | some e =>
    rw [enrollment_create_existing hf, enrollment_create_existing hf]
  | none =>
    have hfresh : dictHasKey s.enrollments s.next_enrollment_id = false :=
      dictHasKey_false_of_bounded h3
    have hstep : Enrollment.create sid cid now s
        = (⟨s.next_enrollment_id, sid, cid, now⟩,
           ⟨s.students, s.courses,
            dictInsert s.enrollments s.next_enrollment_id ⟨s.next_enrollment_id, sid, cid, now⟩,
            s.grades, s.next_student_id, s.next_course_id,
            s.next_enrollment_id + 1, s.next_grade_id⟩) := by
      unfold Enrollment.create
      rw [hf]
    rw [hstep]
    have hf2 : ((dictInsert s.enrollments s.next_enrollment_id
        (⟨s.next_enrollment_id, sid, cid, now⟩ : EnrollmentRec)).map Prod.snd).find?
        (fun e => e.student_id == sid && e.course_id == cid)
        = some ⟨s.next_enrollment_id, sid, cid, now⟩ := by
      rw [dictInsert, if_neg (by simp [hfresh])]
      rw [List.map_append, List.find?_append, hf]
      simp
    exact enrollment_create_existing hf2

/-- `containsSub` decides the sublist-infix relation. -/
theorem containsSub_iff_infix (n : List Char) :
    ∀ h : List Char, containsSub n h = true ↔ n <:+: h := by
  intro h
  induction h with
  | nil =>
    simp [containsSub, List.isEmpty_iff]
  | cons b bs ih =>
    rw [List.infix_cons_iff]
    simp only [containsSub, Bool.or_eq_true, ih]
    constructor
    · rintro (hp | hi)
      · exact Or.inl (List.isPrefixOf_iff_prefix.1 hp)
      · exact Or.inr hi
    · rintro (hp | hi)
      · exact Or.inl (List.isPrefixOf_iff_prefix.2 hp)
      · exact Or.inr hi

/-- Membership characterization of a non-empty `Student.search`. -/
theorem search_mem_iff {q : String} (hq : q ≠ "") (s : DataStore)
    (st : StudentRec) :
    st ∈ Student.search q s ↔
      st ∈ Student.get_all s ∧
        ((pyLower q).data <:+: (pyLower st.name).data ∨
         (pyLower q).data <:+: (pyLower st.email).data) := by
  unfold Student.search Student.get_all
  rw [if_neg hq]
  simp only [List.mem_filter, Bool.or_eq_true, containsSub_iff_infix]

theorem student_create_get (n e ph ad : String) (now : Nat) (s : DataStore) :
    Student.get (Student.create n e ph ad now s).1.id
        (Student.create n e ph ad now s).2
      = some (Student.create n e ph ad now s).1 := by
  unfold Student.create Student.get
  exact dictGet_insert_self _ _ _

theorem course_create_get (code n d : String) (cr : Int) (now : Nat)
    (s : DataStore) :
    Course.get (Course.create code n d cr now s).1.id
        (Course.create code n d cr now s).2
      = some (Course.create code n d cr now s).1 := by
  unfold Course.create Course.get
  exact dictGet_insert_self _ _ _

theorem enrollment_create_get (sid cid now : Nat) {s : DataStore}
    (h : StoreWF s) :
    Enrollment.get (Enrollment.create sid cid now s).1.id
        (Enrollment.create sid cid now s).2
      = some (Enrollment.create sid cid now s).1 := by
  obtain ⟨h1, h2, h3, h4, h5⟩ := h
  cases hf : (s.enrollments.map Prod.snd).find?
      (fun e => e.student_id == sid && e.course_id == cid) with
  | some e =>
    rw [enrollment_create_existing hf]
    have he : e ∈ s.enrollments.map Prod.snd := List.mem_of_find?_eq_some hf
    rcases List.mem_map.1 he with ⟨p, hp, hpe⟩
    have hid : e.id = p.1 := by rw [← hpe]; exact (h3.2 p hp).2
    have hmem : (p.1, e) ∈ s.enrollments := by
      have hpp : p = (p.1, e) := by rw [← hpe]
      rw [← hpp]
      exact hp
    show dictGet s.enrollments e.id = some e
    rw [hid]
    exact dictGet_of_mem_nodup h3.1 hmem
  | none =>
    have hstep : Enrollment.create sid cid now s
        = (⟨s.next_enrollment_id, sid, cid, now⟩,
           ⟨s.students, s.courses,
            dictInsert s.enrollments s.next_enrollment_id ⟨s.next_enrollment_id, sid, cid, now⟩,
            s.grades, s.next_student_id, s.next_course_id,
            s.next_enrollment_id + 1, s.next_grade_id⟩) := by
      unfold Enrollment.create
      rw [hf]
    rw [hstep]
    exact dictGet_insert_self _ _ _

theorem grade_create_get (sid cid : Nat) (lg : String) (pts : Option ℚ)
    (now : Nat) {s : DataStore} (h : StoreWF s) :
    Grade.get (Grade.create sid cid lg pts now s).1.id
        (Grade.create sid cid lg pts now s).2
      = some (Grade.create sid cid lg pts now s).1 := by
  obtain ⟨h1, h2, h3, h4, h5⟩ := h
  cases hf : s.grades.find?
      (fun p => p.2.student_id == sid && p.2.course_id == cid) with
  | some pg =>
    obtain ⟨gid, g⟩ := pg
    rw [grade_create_existing hf]
    have hmem : (gid, g) ∈ s.grades := List.mem_of_find?_eq_some hf
    have hid : g.id = gid := (h4.2 _ hmem).2
    show dictGet (dictInsert s.grades gid _) g.id = some _
    rw [hid]
    exact dictGet_insert_self _ _ _
  | none =>
    have hstep : Grade.create sid cid lg pts now s
        = (⟨s.next_grade_id, sid, cid, lg, Grade.pointsOrDefault pts lg, now, now⟩,
           ⟨s.students, s.courses, s.enrollments,
            dictInsert s.grades s.next_grade_id ⟨s.next_grade_id, sid, cid, lg, Grade.pointsOrDefault pts lg, now, now⟩,
            s.next_student_id, s.next_course_id, s.next_enrollment_id,
            s.next_grade_id + 1⟩) := by
      unfold Grade.create
      rw [hf]
    rw [hstep]
    exact dictGet_insert_self _ _ _

/-- The grade views after `Grade.create` do not depend on the points
override, and the courses table is untouched. -/
theorem grade_create_view (sid cid : Nat) (lg : String) (p₁ p₂ : Option ℚ)
    (now : Nat) (s : DataStore) :
    ((Grade.create sid cid lg p₁ now s).2.grades.map Prod.snd).map gradeView
      = ((Grade.create sid cid lg p₂ now s).2.grades.map Prod.snd).map gradeView ∧
    (Grade.create sid cid lg p₁ now s).2.courses
      = (Grade.create sid cid lg p₂ now s).2.courses := by
  cases hf : s.grades.find?
      (fun p => p.2.student_id == sid && p.2.course_id == cid) with
  | some pg =>
    obtain ⟨gid, g⟩ := pg
    rw [grade_create_existing hf, grade_create_existing hf]
    refine ⟨?_, rfl⟩
    show ((dictInsert s.grades gid _).map Prod.snd).map gradeView
      = ((dictInsert s.grades gid _).map Prod.snd).map gradeView
    unfold dictInsert
    by_cases hh : dictHasKey s.grades gid = true
    · rw [if_pos hh, if_pos hh]
      simp only [List.map_map]
      apply List.map_congr_left
      intro p _
      by_cases hpk : p.1 = gid <;> simp [hpk, gradeView, Function.comp]
    · rw [if_neg hh, if_neg hh]
      simp [gradeView]
  | none =>
    have hstep : ∀ pts : Option ℚ, Grade.create sid cid lg pts now s
        = (⟨s.next_grade_id, sid, cid, lg, Grade.pointsOrDefault pts lg, now, now⟩,
           ⟨s.students, s.courses, s.enrollments,
            dictInsert s.grades s.next_grade_id ⟨s.next_grade_id, sid, cid, lg, Grade.pointsOrDefault pts lg, now, now⟩,
            s.next_student_id, s.next_course_id, s.next_enrollment_id,
            s.next_grade_id + 1⟩) := by
      intro pts
      unfold Grade.create
      rw [hf]
    rw [hstep p₁, hstep p₂]
    refine ⟨?_, rfl⟩
    show ((dictInsert s.grades s.next_grade_id _).map Prod.snd).map gradeView
      = ((dictInsert s.grades s.next_grade_id _).map Prod.snd).map gradeView
    unfold dictInsert
    by_cases hh : dictHasKey s.grades s.next_grade_id = true
    · rw [if_pos hh, if_pos hh]
      simp only [List.map_map]
      apply List.map_congr_left
      intro p _
      by_cases hpk : p.1 = s.next_grade_id <;> simp [hpk, gradeView, Function.comp]
    · rw [if_neg hh, if_neg hh]
      simp [gradeView]

/-- No public operation ever decreases an id counter. -/
theorem step_counters_mono {s t : DataStore} (h : Step s t) :
    s.next_student_id ≤ t.next_student_id ∧
    s.next_course_id ≤ t.next_course_id ∧
    s.next_enrollment_id ≤ t.next_enrollment_id ∧
    s.next_grade_id ≤ t.next_grade_id := by
  cases h with
  | student_create n e ph ad now s =>
    exact ⟨Nat.le_succ _, le_refl _, le_refl _, le_refl _⟩
  | student_update sid n e ph ad now s =>
    unfold Student.update
    cases dictGet s.students sid <;>
      exact ⟨le_refl _, le_refl _, le_refl _, le_refl _⟩
  | student_delete sid s =>
    unfold Student.delete
    by_cases hk : dictHasKey s.students sid = true
    · rw [if_pos hk]
      exact ⟨le_refl _, le_refl _, le_refl _, le_refl _⟩
    · rw [if_neg hk]
      exact ⟨le_refl _, le_refl _, le_refl _, le_refl _⟩
  | course_create code n d cr now s =>
    exact ⟨le_refl _, Nat.le_succ _, le_refl _, le_refl _⟩
  | course_update cid code n d cr now s =>
    unfold Course.update
    cases dictGet s.courses cid <;>
      exact ⟨le_refl _, le_refl _, le_refl _, le_refl _⟩
  | course_delete cid s =>
    unfold Course.delete
    by_cases hk : dictHasKey s.courses cid = true
    · rw [if_pos hk]
      exact ⟨le_refl _, le_refl _, le_refl _, le_refl _⟩
    · rw [if_neg hk]
      exact ⟨le_refl _, le_refl _, le_refl _, le_refl _⟩
  | enrollment_create sid cid now s =>
    unfold Enrollment.create
    cases (s.enrollments.map Prod.snd).find?
        (fun e => e.student_id == sid && e.course_id == cid) with
    | some e => exact ⟨le_refl _, le_refl _, le_refl _, le_refl _⟩
    | none => exact ⟨le_refl _, le_refl _, Nat.le_succ _, le_refl _⟩
  | enrollment_delete eid s =>
    unfold Enrollment.delete
    cases dictGet s.enrollments eid <;>
      exact ⟨le_refl _, le_refl _, le_refl _, le_refl _⟩
  | grade_create sid cid lg pts now s =>
    unfold Grade.create
    cases hf : s.grades.find?
        (fun p => p.2.student_id == sid && p.2.course_id == cid) with
    | some pg =>
      obtain ⟨gid, g⟩ := pg
      exact ⟨le_refl _, le_refl _, le_refl _, le_refl _⟩
    | none => exact ⟨le_refl _, le_refl _, le_refl _, Nat.le_succ _⟩
  | grade_delete gid s =>
    unfold Grade.delete
    by_cases hk : dictHasKey s.grades gid = true
    · rw [if_pos hk]
      exact ⟨le_refl _, le_refl _, le_refl _, le_refl _⟩
    · rw [if_neg hk]
      exact ⟨le_refl _, le_refl _, le_refl _, le_refl _⟩

/-- In a well-formed table the record ids are exactly the keys. -/
theorem ids_eq_keys {α : Type} {idOf : α → Nat} {next : Nat}
    {t : List (Nat × α)} (h : tableWF idOf next t) :
    (t.map Prod.snd).map idOf = t.map Prod.fst := by
  rw [List.map_map]
  exact List.map_congr_left (fun p hp => (h.2 p hp).2)

/-- C1: `Student.calculate_gpa` equals round(N/D, 2), where N sums
letter points times credits and D sums credits over the student's
grades whose course still exists; 0 when D = 0; grades A (3 credits)
and B (4 credits) yield 3.43. -/
theorem C1_calculate_gpa_formula (sid : Nat) (s : DataStore) :
    Student.calculate_gpa sid s =
      (if gpaDenominator sid s = 0 then 0
       else Student.pyRound2 (gpaNumerator sid s / (gpaDenominator sid s : ℚ))) ∧
    Student.calculate_gpa 1 gpaExampleStore = 343/100 := by
  constructor
  · exact calculate_gpa_spec sid s
  · have h1 : Grade.get_by_student 1 gpaExampleStore
        = [⟨1, 1, 1, "A", 4, 0, 0⟩, ⟨2, 1, 2, "B", 3, 0, 0⟩] := by rfl
    unfold Student.calculate_gpa
    rw [h1]
    have hc1 : Course.get 1 gpaExampleStore = some ⟨1, "CS101", "Intro", "d", 3, 0, 0⟩ := rfl
    have hc2 : Course.get 2 gpaExampleStore = some ⟨2, "MA101", "Calc", "d", 4, 0, 0⟩ := rfl
    have hA : Grade.letter_to_points "A" = 4 := rfl
    have hB : Grade.letter_to_points "B" = 3 := rfl
    simp only [List.foldl_cons, List.foldl_nil, List.isEmpty_cons, hc1, hc2, hA, hB]
    norm_num [Student.pyRound2]

/-- C2 counterexample: the claim says an explicit points override is
always stored, but a 0.0 override with letter grade "A" stores 4.0. -/
theorem C2_counterexample :
    (Grade.create 1 1 "A" (some 0) 0 DataStore.empty).1.points = 4 ∧ (4 : ℚ) ≠ 0 := by
  constructor
  · rw [grade_create_points]
    have h : Grade.pointsOrDefault (some 0) "A" = Grade.letter_to_points "A" := by
      simp [Grade.pointsOrDefault]
    rw [h]
    rfl
  · norm_num

/-- C2 (amended): a nonzero explicit override is stored as given; with
no override, or an override equal to 0.0 (which Python's `or` treats as
falsy), the stored points come from the 13-entry table; letter grades
outside the table map to 0.0. -/
theorem C2_grade_points_amended (sid cid : Nat) (lg : String) (pts : Option ℚ)
    (now : Nat) (s : DataStore) :
    (∀ p : ℚ, pts = some p → p ≠ 0 →
       (Grade.create sid cid lg pts now s).1.points = p) ∧
    (pts = none →
       (Grade.create sid cid lg pts now s).1.points = Grade.letter_to_points lg) ∧
    (pts = some 0 →
       (Grade.create sid cid lg pts now s).1.points = Grade.letter_to_points lg) ∧
    (∀ l : String, l ∉ Grade.GRADE_POINTS.map Prod.fst →
       Grade.letter_to_points l = 0) ∧
    Grade.GRADE_POINTS.length = 13 := by
  refine ⟨?_, ?_, ?_, fun l hl => letter_to_points_of_not_mem hl, rfl⟩
  · intro p hp hne
    subst hp
    rw [grade_create_points]
    simp [Grade.pointsOrDefault, hne]
  · intro hp
    subst hp
    rw [grade_create_points]
    rfl
  · intro hp
    subst hp
    rw [grade_create_points]
    simp [Grade.pointsOrDefault]

/-- C2 witness: the amended claim instantiated at concrete inputs. -/
theorem C2_grade_points_witness :
    (Grade.create 1 1 "A" (some 2) 0 DataStore.empty).1.points = 2 ∧
    Grade.letter_to_points "X" = 0 :=
  ⟨(C2_grade_points_amended 1 1 "A" (some 2) 0 DataStore.empty).1 2 rfl (by norm_num),
   (C2_grade_points_amended 1 1 "A" (some 2) 0 DataStore.empty).2.2.2.1 "X" (by decide)⟩

/-- C3: when an enrollment with the pair exists, `Enrollment.create`
returns an existing record with that pair and leaves the store (hence
counts and counters) unchanged; repeated creates are idempotent. -/
theorem C3_enrollment_create_idempotent :
    (∀ (s : DataStore) (sid cid now : Nat),
       (∃ e ∈ Enrollment.get_all s, e.student_id = sid ∧ e.course_id = cid) →
       (Enrollment.create sid cid now s).2 = s ∧
       (Enrollment.create sid cid now s).1 ∈ Enrollment.get_all s ∧
       (Enrollment.create sid cid now s).1.student_id = sid ∧
       (Enrollment.create sid cid now s).1.course_id = cid) ∧
    (∀ (s : DataStore) (sid cid now now' : Nat), StoreWF s →
       Enrollment.create sid cid now' (Enrollment.create sid cid now s).2
         = ((Enrollment.create sid cid now s).1,
            (Enrollment.create sid cid now s).2)) := by
  constructor
  · intro s sid cid now hex
    have hsome : ((s.enrollments.map Prod.snd).find?
        (fun x => x.student_id == sid && x.course_id == cid)).isSome = true := by
      rw [List.find?_isSome]
      rcases hex with ⟨e, he, h1, h2⟩
      exact ⟨e, he, by simp [h1, h2]⟩
    rcases Option.isSome_iff_exists.1 hsome with ⟨e, hf⟩
    have hmem : e ∈ s.enrollments.map Prod.snd := List.mem_of_find?_eq_some hf
    have hpred := List.find?_some hf
    simp only [Bool.and_eq_true, beq_iff_eq] at hpred
    rw [enrollment_create_existing hf]
    exact ⟨rfl, hmem, hpred.1, hpred.2⟩
  · intro s sid cid now now' h
    exact enrollment_create_create sid cid now now' h

/-- C3 witness: the idempotence instantiated at concrete stores. -/
theorem C3_enrollment_witness :
    (Enrollment.create 5 7 3 enrollExampleStore).2 = enrollExampleStore ∧
    Enrollment.create 5 7 1 (Enrollment.create 5 7 0 DataStore.empty).2
      = ((Enrollment.create 5 7 0 DataStore.empty).1,
         (Enrollment.create 5 7 0 DataStore.empty).2) :=
  ⟨(C3_enrollment_create_idempotent.1 enrollExampleStore 5 7 3
      ⟨⟨1, 5, 7, 0⟩, by decide, rfl, rfl⟩).1,
   C3_enrollment_create_idempotent.2 DataStore.empty 5 7 0 1 (by decide)⟩

/-- C4: creating a grade for an existing pair overwrites
letter_grade/points/updated_at in place on the same id, adds no row and
consumes no id; every reachable store has at most one grade per pair. -/
theorem C4_grade_upsert :
    (∀ (s : DataStore) (sid cid : Nat) (lg : String) (pts : Option ℚ)
       (now gid : Nat) (g : GradeRec),
       s.grades.find? (fun p => p.2.student_id == sid && p.2.course_id == cid)
           = some (gid, g) →
       (Grade.create sid cid lg pts now s).1
           = { g with letter_grade := lg, points := Grade.pointsOrDefault pts lg, updated_at := now } ∧
       (Grade.create sid cid lg pts now s).1.id = g.id ∧
       (Grade.create sid cid lg pts now s).2.grades.length = s.grades.length ∧
       (Grade.create sid cid lg pts now s).2.next_grade_id = s.next_grade_id ∧
       (Grade.create sid cid lg pts now s).2.students = s.students ∧
       (Grade.create sid cid lg pts now s).2.courses = s.courses ∧
       (Grade.create sid cid lg pts now s).2.enrollments = s.enrollments) ∧
    (∀ s : DataStore, Reachable s → GradePairsNodup s.grades) := by
  constructor
  · intro s sid cid lg pts now gid g hf
    have hmem : (gid, g) ∈ s.grades := List.mem_of_find?_eq_some hf
    have hkey : dictHasKey s.grades gid = true :=
      dictHasKey_iff.2 ⟨(gid, g), hmem, rfl⟩
    rw [grade_create_existing hf]
    exact ⟨rfl, rfl, dictInsert_length_of_hasKey hkey _, rfl, rfl, rfl, rfl⟩
  · intro s hs
    exact (reachable_storeWF hs).2.2.2.2

/-- C4 witness: upsert instantiated on a store holding a grade for the
pair (1, 1). -/
theorem C4_grade_upsert_witness :
    (Grade.create 1 1 "B" none 5 gradeExampleStore).1.id = 1 ∧
    (Grade.create 1 1 "B" none 5 gradeExampleStore).2.grades.length
      = gradeExampleStore.grades.length ∧
    GradePairsNodup DataStore.empty.grades :=
  ⟨(C4_grade_upsert.1 gradeExampleStore 1 1 "B" none 5 1 ⟨1, 1, 1, "A", 4, 0, 0⟩
      (by decide)).2.1,
   (C4_grade_upsert.1 gradeExampleStore 1 1 "B" none 5 1 ⟨1, 1, 1, "A", 4, 0, 0⟩
      (by decide)).2.2.1,
   C4_grade_upsert.2 DataStore.empty Reachable.empty⟩

/-- C5: deleting a present student returns true, removes the student
row and exactly the enrollments and grades with that student_id, and
leaves courses, all other rows and every counter unchanged. -/
theorem C5_student_delete_cascade (s : DataStore) (sid : Nat)
    (hWF : StoreWF s) (hin : dictHasKey s.students sid = true) :
    (Student.delete sid s).1 = true ∧
    (Student.delete sid s).2.students = s.students.filter (fun p => p.1 != sid) ∧
    (Student.delete sid s).2.enrollments
      = s.enrollments.filter (fun p => !(p.2.student_id == sid)) ∧
    (Student.delete sid s).2.grades
      = s.grades.filter (fun p => !(p.2.student_id == sid)) ∧
    (Student.delete sid s).2.courses = s.courses ∧
    (Student.delete sid s).2.next_student_id = s.next_student_id ∧
    (Student.delete sid s).2.next_course_id = s.next_course_id ∧
    (Student.delete sid s).2.next_enrollment_id = s.next_enrollment_id ∧
    (Student.delete sid s).2.next_grade_id = s.next_grade_id := by
  rw [student_delete_char sid hWF.2.2.1.1 hWF.2.2.2.1.1 hin]
  exact ⟨rfl, rfl, rfl, rfl, rfl, rfl, rfl, rfl, rfl⟩

/-- C5 witness: the cascade instantiated on a two-student store. -/
theorem C5_student_delete_witness :
    (Student.delete 1 cascadeExampleStore).1 = true ∧
    (Student.delete 1 cascadeExampleStore).2.grades
      = cascadeExampleStore.grades.filter (fun p => !(p.2.student_id == 1)) :=
  ⟨(C5_student_delete_cascade cascadeExampleStore 1 (by decide) (by decide)).1,
   (C5_student_delete_cascade cascadeExampleStore 1 (by decide) (by decide)).2.2.2.1⟩

/-- C6: deleting a present enrollment returns true, removes that
enrollment and the grades with its (student_id, course_id) pair, and
leaves all other rows and every counter unchanged. -/
theorem C6_enrollment_delete_cascade (s : DataStore) (eid : Nat)
    (e : EnrollmentRec) (hWF : StoreWF s)
    (hget : Enrollment.get eid s = some e) :
    (Enrollment.delete eid s).1 = true ∧
    (Enrollment.delete eid s).2.enrollments
      = s.enrollments.filter (fun p => p.1 != eid) ∧
    (Enrollment.delete eid s).2.grades
      = s.grades.filter (fun p =>
          !(p.2.student_id == e.student_id && p.2.course_id == e.course_id)) ∧
    (Enrollment.delete eid s).2.students = s.students ∧
    (Enrollment.delete eid s).2.courses = s.courses ∧
    (Enrollment.delete eid s).2.next_student_id = s.next_student_id ∧
    (Enrollment.delete eid s).2.next_course_id = s.next_course_id ∧
    (Enrollment.delete eid s).2.next_enrollment_id = s.next_enrollment_id ∧
    (Enrollment.delete eid s).2.next_grade_id = s.next_grade_id := by
  rw [enrollment_delete_char hWF.2.2.2.1.1 hget]
  exact ⟨rfl, rfl, rfl, rfl, rfl, rfl, rfl, rfl, rfl⟩

/-- C6 witness: the cascade instantiated on a concrete enrollment. -/
theorem C6_enrollment_delete_witness :
    (Enrollment.delete 1 cascadeExampleStore).1 = true ∧
    (Enrollment.delete 1 cascadeExampleStore).2.grades
      = cascadeExampleStore.grades.filter (fun p =>
          !(p.2.student_id == 1 && p.2.course_id == 1)) :=
  ⟨(C6_enrollment_delete_cascade cascadeExampleStore 1 ⟨1, 1, 1, 0⟩
      (by decide) (by decide)).1,
   (C6_enrollment_delete_cascade cascadeExampleStore 1 ⟨1, 1, 1, 0⟩
      (by decide) (by decide)).2.2.1⟩

/-- C7: each id counter starts at 1 in the empty store and never
decreases under any operation; in every reachable store the ids of each
table are pairwise distinct and below the counter (so a deleted id is
never reused); create A, delete A, create B yields B.id = 2. -/
theorem C7_id_allocation :
    (DataStore.empty.next_student_id = 1 ∧ DataStore.empty.next_course_id = 1 ∧
     DataStore.empty.next_enrollment_id = 1 ∧ DataStore.empty.next_grade_id = 1) ∧
    (∀ s t : DataStore, Step s t →
       s.next_student_id ≤ t.next_student_id ∧
       s.next_course_id ≤ t.next_course_id ∧
       s.next_enrollment_id ≤ t.next_enrollment_id ∧
       s.next_grade_id ≤ t.next_grade_id) ∧
    (∀ s : DataStore, Reachable s →
       ((Student.get_all s).map StudentRec.id).Nodup ∧
       ((Course.get_all s).map CourseRec.id).Nodup ∧
       ((Enrollment.get_all s).map EnrollmentRec.id).Nodup ∧
       ((Grade.get_all s).map GradeRec.id).Nodup ∧
       (∀ st ∈ Student.get_all s, st.id < s.next_student_id) ∧
       (∀ c ∈ Course.get_all s, c.id < s.next_course_id) ∧
       (∀ e ∈ Enrollment.get_all s, e.id < s.next_enrollment_id) ∧
       (∀ g ∈ Grade.get_all s, g.id < s.next_grade_id)) ∧
    ((Student.create "A" "a" "p" "q" 0 DataStore.empty).1.id = 1 ∧
     (Student.create "B" "b" "p" "q" 1
        (Student.delete 1 (Student.create "A" "a" "p" "q" 0 DataStore.empty).2).2).1.id
       = 2) := by
  refine ⟨⟨rfl, rfl, rfl, rfl⟩, fun s t h => step_counters_mono h, ?_, by decide⟩
  intro s hs
  obtain ⟨h1, h2, h3, h4, h5⟩ := reachable_storeWF hs
  refine ⟨?_, ?_, ?_, ?_, ?_, ?_, ?_, ?_⟩
  · show ((s.students.map Prod.snd).map StudentRec.id).Nodup
    rw [ids_eq_keys h1]
    exact h1.1
  · show ((s.courses.map Prod.snd).map CourseRec.id).Nodup
    rw [ids_eq_keys h2]
    exact h2.1
  · show ((s.enrollments.map Prod.snd).map EnrollmentRec.id).Nodup
    rw [ids_eq_keys h3]
    exact h3.1
  · show ((s.grades.map Prod.snd).map GradeRec.id).Nodup
    rw [ids_eq_keys h4]
    exact h4.1
  · intro st hst
    rcases List.mem_map.1 hst with ⟨p, hp, hpe⟩
    rw [← hpe, (h1.2 p hp).2]
    exact (h1.2 p hp).1
  · intro c hc
    rcases List.mem_map.1 hc with ⟨p, hp, hpe⟩
    rw [← hpe, (h2.2 p hp).2]
    exact (h2.2 p hp).1
  · intro e he
    rcases List.mem_map.1 he with ⟨p, hp, hpe⟩
    rw [← hpe, (h3.2 p hp).2]
    exact (h3.2 p hp).1
  · intro g hg
    rcases List.mem_map.1 hg with ⟨p, hp, hpe⟩
    rw [← hpe, (h4.2 p hp).2]
    exact (h4.2 p hp).1

/-- C7 witness: counter monotonicity at a concrete step and id
distinctness at a concrete reachable store. -/
theorem C7_id_allocation_witness :
    DataStore.empty.next_student_id
        ≤ (Student.create "A" "a" "p" "q" 0 DataStore.empty).2.next_student_id ∧
    ((Student.get_all DataStore.empty).map StudentRec.id).Nodup :=
  ⟨(C7_id_allocation.2.1 DataStore.empty _
      (Step.student_create "A" "a" "p" "q" 0 DataStore.empty)).1,
   (C7_id_allocation.2.2.1 DataStore.empty Reachable.empty).1⟩

/-- C8: an empty query returns all students; a non-empty query returns
exactly the students whose lowercased name or email contains the
lowercased query as a substring; "jo" matches both "John Smith" and
"josephine@example.com". -/
theorem C8_search (q : String) (s : DataStore) (st : StudentRec) (hq : q ≠ "") :
    Student.search "" s = Student.get_all s ∧
    (st ∈ Student.search q s ↔
      st ∈ Student.get_all s ∧
        ((pyLower q).data <:+: (pyLower st.name).data ∨
         (pyLower q).data <:+: (pyLower st.email).data)) ∧
    Student.search "jo" searchExampleStore
      = [⟨1, "John Smith", "john@example.com", "1", "a1", 0, 0⟩,
         ⟨2, "Mary Jones", "josephine@example.com", "2", "a2", 0, 0⟩] :=
  ⟨rfl, search_mem_iff hq s st, by decide⟩

/-- C8 witness: the search characterization applied at query "jo". -/
theorem C8_search_witness :
    Student.search "jo" searchExampleStore
      = [⟨1, "John Smith", "john@example.com", "1", "a1", 0, 0⟩,
         ⟨2, "Mary Jones", "josephine@example.com", "2", "a2", 0, 0⟩] :=
  (C8_search "jo" searchExampleStore ⟨1, "John Smith", "john@example.com", "1", "a1", 0, 0⟩
    (by decide)).2.2

/-- C9: for every entity kind, `get` applied to the id of the record
just returned by `create` yields that record. -/
theorem C9_create_get_roundtrip (s : DataStore) (hWF : StoreWF s) :
    (∀ n e ph ad now, Student.get (Student.create n e ph ad now s).1.id
        (Student.create n e ph ad now s).2 = some (Student.create n e ph ad now s).1) ∧
    (∀ code n d cr now, Course.get (Course.create code n d cr now s).1.id
        (Course.create code n d cr now s).2 = some (Course.create code n d cr now s).1) ∧
    (∀ sid cid now, Enrollment.get (Enrollment.create sid cid now s).1.id
        (Enrollment.create sid cid now s).2 = some (Enrollment.create sid cid now s).1) ∧
    (∀ sid cid lg pts now, Grade.get (Grade.create sid cid lg pts now s).1.id
        (Grade.create sid cid lg pts now s).2 = some (Grade.create sid cid lg pts now s).1) :=
  ⟨fun n e ph ad now => student_create_get n e ph ad now s,
   fun code n d cr now => course_create_get code n d cr now s,
   fun sid cid now => enrollment_create_get sid cid now ⟨hWF.1, hWF.2.1, hWF.2.2.1, hWF.2.2.2.1, hWF.2.2.2.2⟩,
   fun sid cid lg pts now => grade_create_get sid cid lg pts now ⟨hWF.1, hWF.2.1, hWF.2.2.1, hWF.2.2.2.1, hWF.2.2.2.2⟩⟩

/-- C9 witness: the round trip at the empty store. -/
theorem C9_create_get_witness :
    Student.get (Student.create "N" "e" "p" "a" 0 DataStore.empty).1.id
        (Student.create "N" "e" "p" "a" 0 DataStore.empty).2
      = some (Student.create "N" "e" "p" "a" 0 DataStore.empty).1 :=
  (C9_create_get_roundtrip DataStore.empty (by decide)).1 "N" "e" "p" "a" 0

/-- C10: the GPA is independent of the stored `points` fields: stores
that differ only in grade points give every student the same GPA, and
the points override passed to `Grade.create` never influences any GPA. -/
theorem C10_gpa_points_independent :
    (∀ s t : DataStore, s.courses = t.courses →
       List.Forall₂ EqExceptPoints s.grades t.grades →
       ∀ sid, Student.calculate_gpa sid s = Student.calculate_gpa sid t) ∧
    (∀ (s : DataStore) (sid cid : Nat) (lg : String) (p₁ p₂ : Option ℚ)
       (now x : Nat),
       Student.calculate_gpa x (Grade.create sid cid lg p₁ now s).2
         = Student.calculate_gpa x (Grade.create sid cid lg p₂ now s).2) := by
  constructor
  · intro s t hc hg sid
    exact calculate_gpa_view sid hc (view_of_eqExceptPoints hg)
  · intro s sid cid lg p₁ p₂ now x
    have h := grade_create_view sid cid lg p₁ p₂ now s
    exact calculate_gpa_view x h.2 h.1

/-- C10 witness: two stores differing only in a grade's points value
(4 vs 7) compute the same GPA. -/
theorem C10_gpa_points_witness :
    Student.calculate_gpa 1 pointsStoreA = Student.calculate_gpa 1 pointsStoreB :=
  C10_gpa_points_independent.1 pointsStoreA pointsStoreB rfl
    (List.Forall₂.cons ⟨rfl, rfl, rfl, rfl, rfl, rfl, rfl⟩ List.Forall₂.nil) 1

end SMS
